import Mathlib

/-!
Shallow embedding of the RK4 ODE-solver core of the `diff_eq` repository
(`src/lib/ode-solver.ts`, types in `src/types/simulation.ts`).

JavaScript numbers are modelled exactly: a finite value is an exact rational
(floating-point rounding is not modelled), and the special values `NaN`,
`Infinity` and `-Infinity` are explicit constructors.  `-0` is identified
with `0`.  Thrown `Error`s are modelled as `Except.error` carrying a
structured error value in place of the source's message string; each throw
site of the source corresponds to one error constructor.
-/

namespace DiffEq

/-- Model of a JavaScript `number`: an exact rational, or one of the special
values `NaN`, `Infinity`, `-Infinity`. -/
inductive JsNum where
  | fin (q : ℚ)
  | nan
  | inf
  | negInf
deriving DecidableEq, Repr

/-- Model of JavaScript `isFinite`: true exactly on non-special values. -/
def jsIsFinite : JsNum → Bool
  | JsNum.fin _ => true
  | _ => false

/-- Model of JavaScript `<` on numbers: any comparison with `NaN` is false. -/
def jsLt : JsNum → JsNum → Bool
  | JsNum.nan, _ => false
  | _, JsNum.nan => false
  | JsNum.fin a, JsNum.fin b => decide (a < b)
  | JsNum.fin _, JsNum.inf => true
  | JsNum.fin _, JsNum.negInf => false
  | JsNum.inf, _ => false
  | JsNum.negInf, JsNum.negInf => false
  | JsNum.negInf, _ => true

/-- Model of JavaScript `<=` on numbers: any comparison with `NaN` is false. -/
def jsLe : JsNum → JsNum → Bool
  | JsNum.nan, _ => false
  | _, JsNum.nan => false
  | JsNum.fin a, JsNum.fin b => decide (a ≤ b)
  | JsNum.fin _, JsNum.inf => true
  | JsNum.fin _, JsNum.negInf => false
  | JsNum.inf, JsNum.inf => true
  | JsNum.inf, _ => false
  | JsNum.negInf, _ => true

/-- Model of JavaScript `>`: `a > b` holds exactly when `b < a`. -/
def jsGt (a b : JsNum) : Bool := jsLt b a

/-- Model of JavaScript `+` on numbers (exact on finite values). -/
def jsAdd : JsNum → JsNum → JsNum
  | JsNum.nan, _ => JsNum.nan
  | _, JsNum.nan => JsNum.nan
  | JsNum.fin a, JsNum.fin b => JsNum.fin (a + b)
  | JsNum.inf, JsNum.negInf => JsNum.nan
  | JsNum.negInf, JsNum.inf => JsNum.nan
  | JsNum.inf, _ => JsNum.inf
  | JsNum.negInf, _ => JsNum.negInf
  | _, JsNum.inf => JsNum.inf
  | _, JsNum.negInf => JsNum.negInf

/-- Model of JavaScript `-` on numbers (exact on finite values). -/
def jsSub : JsNum → JsNum → JsNum
  | JsNum.nan, _ => JsNum.nan
  | _, JsNum.nan => JsNum.nan
  | JsNum.fin a, JsNum.fin b => JsNum.fin (a - b)
  | JsNum.inf, JsNum.inf => JsNum.nan
  | JsNum.negInf, JsNum.negInf => JsNum.nan
  | JsNum.inf, _ => JsNum.inf
  | JsNum.negInf, _ => JsNum.negInf
  | _, JsNum.inf => JsNum.negInf
  | _, JsNum.negInf => JsNum.inf

/-- Model of JavaScript `*` on numbers (exact on finite values;
`±Infinity * 0 = NaN`, otherwise infinities follow the sign rule). -/
def jsMul : JsNum → JsNum → JsNum
  | JsNum.nan, _ => JsNum.nan
  | _, JsNum.nan => JsNum.nan
  | JsNum.fin a, JsNum.fin b => JsNum.fin (a * b)
  | JsNum.inf, JsNum.inf => JsNum.inf
  | JsNum.inf, JsNum.negInf => JsNum.negInf
  | JsNum.negInf, JsNum.inf => JsNum.negInf
  | JsNum.negInf, JsNum.negInf => JsNum.inf
  | JsNum.inf, JsNum.fin b =>
      if b = 0 then JsNum.nan else if 0 < b then JsNum.inf else JsNum.negInf
  | JsNum.fin a, JsNum.inf =>
      if a = 0 then JsNum.nan else if 0 < a then JsNum.inf else JsNum.negInf
  | JsNum.negInf, JsNum.fin b =>
      if b = 0 then JsNum.nan else if 0 < b then JsNum.negInf else JsNum.inf
  | JsNum.fin a, JsNum.negInf =>
      if a = 0 then JsNum.nan else if 0 < a then JsNum.negInf else JsNum.inf

/-- Model of JavaScript `/` on numbers (exact on finite values; division by
zero yields a signed infinity or `NaN`; `-0` is not modelled). -/
def jsDiv : JsNum → JsNum → JsNum
  | JsNum.nan, _ => JsNum.nan
  | _, JsNum.nan => JsNum.nan
  | JsNum.fin a, JsNum.fin b =>
      if b = 0 then
        (if a = 0 then JsNum.nan else if 0 < a then JsNum.inf else JsNum.negInf)
      else JsNum.fin (a / b)
  | JsNum.inf, JsNum.fin b => if 0 ≤ b then JsNum.inf else JsNum.negInf
  | JsNum.negInf, JsNum.fin b => if 0 ≤ b then JsNum.negInf else JsNum.inf
  | JsNum.fin _, JsNum.inf => JsNum.fin 0
  | JsNum.fin _, JsNum.negInf => JsNum.fin 0
  | _, _ => JsNum.nan

/-- Parameter of an ODE system (`Parameter` in `src/types/simulation.ts`). -/
structure Parameter where
  name : String
  label : String
  min : JsNum
  max : JsNum
  step : JsNum
  default : JsNum

/-- A `Record<string, number>` of parameter values, as an association list
(first binding wins on lookup, matching JS object key semantics where keys
are unique). -/
abbrev ParamMap := List (String × JsNum)

/-- Solver configuration (`SolverConfig` in `src/types/simulation.ts`). -/
structure SolverConfig where
  dt : JsNum
  tMax : JsNum
  initialConditions : List JsNum
  parameters : ParamMap

/-- ODE system definition (`ODESystem` in `src/types/simulation.ts`). -/
structure ODESystem where
  id : String
  name : String
  description : String
  stateVariables : List String
  parameters : List Parameter
  defaultInitialConditions : List JsNum
  equations : List JsNum → ParamMap → List JsNum

/-- One trajectory sample (`TrajectoryPoint`); `t` stays an exact rational
since it is only ever `0` or a previous `t` plus the finite `dt`. -/
structure TrajectoryPoint where
  t : ℚ
  state : List JsNum
deriving DecidableEq, Repr

/-- A produced trajectory (`Trajectory`); the source field `variables` is
named `vars` here because `variables` is reserved in Lean. -/
structure Trajectory where
  points : List TrajectoryPoint
  vars : List String
deriving DecidableEq, Repr

/-- Error thrown by the vector helpers `add`, `subtract`, `dot` on a length
mismatch; carries both lengths (the source interpolates them into the
thrown message `Vector length mismatch: a !== b`). -/
inductive VecError where
  | dimensionMismatch (a b : ℕ)
deriving DecidableEq, Repr

/-- Vector `add` from `ode-solver.ts`: throws on length mismatch, otherwise
maps `(val, i) => val + b[i]` over `a` (the `getD _ JsNum.nan` default models
the out-of-range `undefined` access, unreachable under the guard). -/
def add (a b : List JsNum) : Except VecError (List JsNum) :=
  if a.length ≠ b.length then
    Except.error (VecError.dimensionMismatch a.length b.length)
  else
    Except.ok ((List.range a.length).map fun i =>
      jsAdd (a.getD i JsNum.nan) (b.getD i JsNum.nan))

/-- Vector `scale` from `ode-solver.ts`: `v.map(val => val * scalar)`. -/
def scale (v : List JsNum) (scalar : JsNum) : List JsNum :=
  v.map fun val => jsMul val scalar

/-- Vector `subtract` from `ode-solver.ts`: throws on length mismatch,
otherwise maps `(val, i) => val - b[i]` over `a`. -/
def subtract (a b : List JsNum) : Except VecError (List JsNum) :=
  if a.length ≠ b.length then
    Except.error (VecError.dimensionMismatch a.length b.length)
  else
    Except.ok ((List.range a.length).map fun i =>
      jsSub (a.getD i JsNum.nan) (b.getD i JsNum.nan))

/-- Vector `dot` from `ode-solver.ts`: throws on length mismatch, otherwise
`a.reduce((sum, val, i) => sum + val * b[i], 0)`. -/
def dot (a b : List JsNum) : Except VecError JsNum :=
  if a.length ≠ b.length then
    Except.error (VecError.dimensionMismatch a.length b.length)
  else
    Except.ok ((List.range a.length).foldl
      (fun sum i => jsAdd sum (jsMul (a.getD i JsNum.nan) (b.getD i JsNum.nan)))
      (JsNum.fin 0))

/-- The sum `v.reduce((sum, val) => sum + val * val, 0)` computed inside
`magnitude` in `ode-solver.ts`. -/
def magnitudeSum (v : List JsNum) : JsNum :=
  v.foldl (fun sum val => jsAdd sum (jsMul val val)) (JsNum.fin 0)

/-- Result type of `Math.sqrt`: a real number or a special value (the exact
real square root stands in for the floating-point one). -/
inductive JsReal where
  | fin (x : ℝ)
  | nan
  | inf
  | negInf

/-- Model of JavaScript `Math.sqrt`: `NaN` on `NaN` and on negative inputs,
`Infinity` on `Infinity`, the exact square root on finite nonnegative
inputs. -/
noncomputable def jsSqrt : JsNum → JsReal
  | JsNum.nan => JsReal.nan
  | JsNum.inf => JsReal.inf
  | JsNum.negInf => JsReal.nan
  | JsNum.fin q => if q < 0 then JsReal.nan else JsReal.fin (Real.sqrt (q : ℝ))

/-- Vector `magnitude` from `ode-solver.ts`:
`Math.sqrt(v.reduce((sum, val) => sum + val * val, 0))`. -/
noncomputable def magnitude (v : List JsNum) : JsReal :=
  jsSqrt (magnitudeSum v)

/-- One RK4 step, from `rk4Step` in `ode-solver.ts`.  The `add` calls can
throw (length mismatch between `f`'s output and the state); the thrown error
propagates, modelled by the `Except` chaining.  No finiteness check is
performed here. -/
def rk4Step (f : List JsNum → ParamMap → List JsNum) (state : List JsNum)
    (params : ParamMap) (dt : JsNum) : Except VecError (List JsNum) :=
  let k1 := f state params
  match add state (scale k1 (jsDiv dt (JsNum.fin 2))) with
  | Except.error e => Except.error e
  | Except.ok s2 =>
    let k2 := f s2 params
    match add state (scale k2 (jsDiv dt (JsNum.fin 2))) with
    | Except.error e => Except.error e
    | Except.ok s3 =>
      let k3 := f s3 params
      match add state (scale k3 dt) with
      | Except.error e => Except.error e
      | Except.ok s4 =>
        let k4 := f s4 params
        match add k1 (scale k2 (JsNum.fin 2)) with
        | Except.error e => Except.error e
        | Except.ok w1 =>
          match add (scale k3 (JsNum.fin 2)) k4 with
          | Except.error e => Except.error e
          | Except.ok w2 =>
            match add w1 w2 with
            | Except.error e => Except.error e
            | Except.ok weightedSum =>
              add state (scale weightedSum (jsDiv dt (JsNum.fin 6)))

/-- Structured stand-ins for the validator's returned message strings, one
constructor per `return` in `validateSolverConfig`, carrying the values the
source interpolates into the message.  The `Array.isArray` and
`typeof parameters` checks of the source cannot fail in this typed model
and have no constructor. -/
inductive ValidationError where
  | dtNotFinite
  | dtNotPositive
  | dtGreaterThanTMax
  | tMaxNotFinite
  | tMaxNotPositive
  | initialConditionsWrongLength (got expected : ℕ)
  | initialConditionsNotFinite
  | missingParameters (names : List String)
  | parameterNotFinite (name : String)
  | parameterOutOfRange (name : String) (value min max : JsNum)
deriving DecidableEq, Repr

/-- The `for (const param of system.parameters)` loop at the end of
`validateSolverConfig`: first offending parameter wins.  A missing key reads
as `undefined`, which `isFinite` rejects, modelled by the `JsNum.nan`
default (unreachable after the missing-parameters check). -/
def checkParamValues : List Parameter → ParamMap → Option ValidationError
  | [], _ => none
  | param :: rest, parameters =>
    let value := (parameters.lookup param.name).getD JsNum.nan
    if !jsIsFinite value then
      some (ValidationError.parameterNotFinite param.name)
    else if jsLt value param.min || jsGt value param.max then
      some (ValidationError.parameterOutOfRange param.name value param.min param.max)
    else
      checkParamValues rest parameters

/-- The validator `validateSolverConfig` from `ode-solver.ts`: the exact
chain of `if`/`return` checks, in source order.  Returns `none` for a valid
configuration. -/
def validateSolverConfig (config : SolverConfig) (system : ODESystem) :
    Option ValidationError :=
  if !jsIsFinite config.dt then
    some ValidationError.dtNotFinite
  else if jsLe config.dt (JsNum.fin 0) then
    some ValidationError.dtNotPositive
  else if jsGt config.dt config.tMax then
    some ValidationError.dtGreaterThanTMax
  else if !jsIsFinite config.tMax then
    some ValidationError.tMaxNotFinite
  else if jsLe config.tMax (JsNum.fin 0) then
    some ValidationError.tMaxNotPositive
  else if config.initialConditions.length ≠ system.stateVariables.length then
    some (ValidationError.initialConditionsWrongLength
      config.initialConditions.length system.stateVariables.length)
  else if config.initialConditions.any (fun val => !jsIsFinite val) then
    some ValidationError.initialConditionsNotFinite
  else
    let missingParams := (system.parameters.map Parameter.name).filter
      (fun nm => (config.parameters.lookup nm).isNone)
    if missingParams ≠ [] then
      some (ValidationError.missingParameters missingParams)
    else
      checkParamValues system.parameters config.parameters

/-- The check `hasInvalidValues` from `ode-solver.ts`:
`state.some(val => !isFinite(val))`. -/
def hasInvalidValues (state : List JsNum) : Bool :=
  state.any fun val => !jsIsFinite val

/-- Structured stand-ins for the errors `solveODE` can throw, one
constructor per throw site (`vectorMismatch` is the re-thrown error from the
vector helpers inside `rk4Step`). -/
inductive SolveError where
  | invalidConfig (e : ValidationError)
  | nonFiniteInitialState
  | numericalInstability (t : ℚ)
  | stepBudgetExceeded
  | vectorMismatch (a b : ℕ)
deriving DecidableEq, Repr

/-- The finite rational value of a `JsNum`; meaningful only under a
finiteness guarantee (the validator), where `solveODE` uses it. -/
def finVal : JsNum → ℚ
  | JsNum.fin q => q
  | _ => 0

/-- The `while (t < tMax && stepCount < maxSteps)` loop of `solveODE`,
with `fuel = maxSteps - stepCount`.  At `fuel = 0` the loop condition
`stepCount < maxSteps` is false and the post-loop guard
`if (stepCount >= maxSteps) throw` fires — regardless of `t`, exactly as in
the source, which does not re-examine `t` there.  One iteration: step,
`t += dt`, instability check on the new state (reporting the incremented
`t`), then append the point. -/
def integrateLoop (f : List JsNum → ParamMap → List JsNum) (params : ParamMap)
    (dt tMax : ℚ) :
    ℕ → ℚ → List JsNum → List TrajectoryPoint →
      Except SolveError (List TrajectoryPoint)
  | 0, _, _, _ => Except.error SolveError.stepBudgetExceeded
  | fuel + 1, t, state, points =>
    if t < tMax then
      match rk4Step f state params (JsNum.fin dt) with
      | Except.error (VecError.dimensionMismatch a b) =>
          Except.error (SolveError.vectorMismatch a b)
      | Except.ok next =>
          if hasInvalidValues next then
            Except.error (SolveError.numericalInstability (t + dt))
          else
            integrateLoop f params dt tMax fuel (t + dt) next
              (points ++ [(⟨t + dt, next⟩ : TrajectoryPoint)])
    else
      Except.ok points

/-- The solver `solveODE` from `ode-solver.ts`.  Validation, then the
non-finite initial-state check, then the first point `(0, state)`, then the
capped stepping loop with `maxSteps = Math.ceil(tMax / dt) + 1`.  Thrown
errors are `Except.error`s.  After validation `dt` and `tMax` are finite,
so their rational values drive the loop. -/
def solveODE (system : ODESystem) (config : SolverConfig) :
    Except SolveError Trajectory :=
  match validateSolverConfig config system with
  | some e => Except.error (SolveError.invalidConfig e)
  | none =>
    if hasInvalidValues config.initialConditions then
      Except.error SolveError.nonFiniteInitialState
    else
      let dt := finVal config.dt
      let tMax := finVal config.tMax
      let maxSteps := (⌈tMax / dt⌉ + 1).toNat
      match integrateLoop system.equations config.parameters dt tMax maxSteps 0
          config.initialConditions
          [(⟨0, config.initialConditions⟩ : TrajectoryPoint)] with
      | Except.error e => Except.error e
      | Except.ok points => Except.ok ⟨points, system.stateVariables⟩

/-- Outcome of `solveODESafe` (`SolverResult` in `src/types/simulation.ts`):
success with a trajectory, or failure carrying the structured error whose
message string the source would report. -/
inductive SolverResult where
  | success (trajectory : Trajectory)
  | failure (error : SolveError)
deriving DecidableEq, Repr

/-- The wrapper `solveODESafe` from `ode-solver.ts`: catches whatever
`solveODE` throws and returns it as a result value. -/
def solveODESafe (system : ODESystem) (config : SolverConfig) : SolverResult :=
  match solveODE system config with
  | Except.ok trajectory => SolverResult.success trajectory
  | Except.error e => SolverResult.failure e

/-- Total element-wise vector sum (spec-side formulation; the guarded `add`
agrees with it on equal lengths). -/
def addV (a b : List JsNum) : List JsNum := List.zipWith jsAdd a b

/-- The RK4 update as the spec (§4.3) writes it:
`next = state + (dt/6)·(k1 + 2·k2 + 2·k3 + k4)` with
`k1 = f(state)`, `k2 = f(state + (dt/2)·k1)`, `k3 = f(state + (dt/2)·k2)`,
`k4 = f(state + dt·k3)`, the four-term sum associated to the left. -/
def rk4SpecNext (f : List JsNum → ParamMap → List JsNum) (state : List JsNum)
    (params : ParamMap) (dt : JsNum) : List JsNum :=
  let k1 := f state params
  let k2 := f (addV state (scale k1 (jsDiv dt (JsNum.fin 2)))) params
  let k3 := f (addV state (scale k2 (jsDiv dt (JsNum.fin 2)))) params
  let k4 := f (addV state (scale k3 dt)) params
  addV state (scale
    (addV (addV (addV k1 (scale k2 (JsNum.fin 2))) (scale k3 (JsNum.fin 2))) k4)
    (jsDiv dt (JsNum.fin 6)))

/-- The validation rules as an ordered list of (violated?, reported error)
pairs, spec-side: written from the spec's rule list (§4.2) with the
priority of `tMax` checks and `dt ≤ tMax` as the code has it, the parameter
checks flattened per declared parameter. -/
def validationRules (config : SolverConfig) (system : ODESystem) :
    List (Bool × ValidationError) :=
  [ (!jsIsFinite config.dt, ValidationError.dtNotFinite),
    (jsLe config.dt (JsNum.fin 0), ValidationError.dtNotPositive),
    (jsGt config.dt config.tMax, ValidationError.dtGreaterThanTMax),
    (!jsIsFinite config.tMax, ValidationError.tMaxNotFinite),
    (jsLe config.tMax (JsNum.fin 0), ValidationError.tMaxNotPositive),
    (decide (config.initialConditions.length ≠ system.stateVariables.length),
      ValidationError.initialConditionsWrongLength
        config.initialConditions.length system.stateVariables.length),
    (config.initialConditions.any (fun val => !jsIsFinite val),
      ValidationError.initialConditionsNotFinite),
    (decide ((system.parameters.map Parameter.name).filter
        (fun nm => (config.parameters.lookup nm).isNone) ≠ []),
      ValidationError.missingParameters ((system.parameters.map Parameter.name).filter
        (fun nm => (config.parameters.lookup nm).isNone))) ]
  ++ system.parameters.flatMap (fun param =>
      let value := (config.parameters.lookup param.name).getD JsNum.nan
      [ (!jsIsFinite value, ValidationError.parameterNotFinite param.name),
        (jsLt value param.min || jsGt value param.max,
          ValidationError.parameterOutOfRange param.name value param.min param.max) ])

/-- First violated rule of an ordered rule list (spec-side: "the first
violated rule, in this priority order — first match wins"). -/
def firstViolation (rules : List (Bool × ValidationError)) : Option ValidationError :=
  (rules.find? (fun r => r.1)).map (fun r => r.2)

/-- Concrete one-variable system with zero dynamics, for witnesses. -/
def constSystem : ODESystem :=
  ⟨"const", "Constant", "dx/dt = 0", ["x"], [], [JsNum.fin 1],
    fun _ _ => [JsNum.fin 0]⟩

/-- Concrete one-variable system whose derivative is immediately `NaN`. -/
def nanSystem : ODESystem :=
  ⟨"nan-system", "NaN system", "dx/dt = NaN", ["x"], [], [JsNum.fin 1],
    fun _ _ => [JsNum.nan]⟩

/-- Concrete valid configuration: `dt = 1`, `tMax = 1`, state `[1]`. -/
def cfg1 : SolverConfig := ⟨JsNum.fin 1, JsNum.fin 1, [JsNum.fin 1], []⟩

/-- Concrete configuration violating both the `tMax > 0` rule and the
`dt ≤ tMax` rule: `dt = 1` (finite, positive), `tMax = -1`. -/
def cfgBadTMax : SolverConfig := ⟨JsNum.fin 1, JsNum.fin (-1), [JsNum.fin 1], []⟩

deriving instance DecidableEq for Except

/-! Helper lemmas and claim theorems. -/


lemma rangeMap_eq_zipWith (g : JsNum → JsNum → JsNum) :
    ∀ (a b : List JsNum), a.length = b.length →
      (List.range a.length).map
          (fun i => g (a.getD i JsNum.nan) (b.getD i JsNum.nan)) =
        List.zipWith g a b := by
  intro a
  induction a with
  | nil => intro b h; simp
  | cons x xs ih =>
    intro b h
    cases b with
    | nil => simp at h
    | cons y ys =>
      simp only [List.length_cons] at h
      have hlen : xs.length = ys.length := by omega
      simp only [List.length_cons, List.range_succ_eq_map, List.map_cons,
        List.map_map, List.zipWith_cons_cons]
      simp only [List.getD_cons_zero, Function.comp_def, List.getD_cons_succ]
      rw [ih ys hlen]

lemma rangeFold_eq_zipWith_foldl (g : JsNum → JsNum → JsNum) :
    ∀ (a b : List JsNum) (acc : JsNum), a.length = b.length →
      (List.range a.length).foldl
          (fun sum i => jsAdd sum (g (a.getD i JsNum.nan) (b.getD i JsNum.nan))) acc =
        (List.zipWith g a b).foldl jsAdd acc := by
  intro a
  induction a with
  | nil => intro b acc h; simp
  | cons x xs ih =>
    intro b acc h
    cases b with
    | nil => simp at h
    | cons y ys =>
      simp only [List.length_cons] at h
      have hlen : xs.length = ys.length := by omega
      simp only [List.length_cons, List.range_succ_eq_map, List.foldl_cons,
        List.foldl_map, List.zipWith_cons_cons]
      have := ih ys (jsAdd acc (g x y)) hlen
      simpa [List.getD_cons_succ] using this

lemma add_eq_ok {a b : List JsNum} (h : a.length = b.length) :
    add a b = Except.ok (List.zipWith jsAdd a b) := by
  unfold add
  rw [if_neg (by omega), rangeMap_eq_zipWith jsAdd a b h]

lemma subtract_eq_ok {a b : List JsNum} (h : a.length = b.length) :
    subtract a b = Except.ok (List.zipWith jsSub a b) := by
  unfold subtract
  rw [if_neg (by omega), rangeMap_eq_zipWith jsSub a b h]

lemma dot_eq_ok {a b : List JsNum} (h : a.length = b.length) :
    dot a b = Except.ok ((List.zipWith jsMul a b).foldl jsAdd (JsNum.fin 0)) := by
  unfold dot
  rw [if_neg (by omega), rangeFold_eq_zipWith_foldl jsMul a b (JsNum.fin 0) h]

/-- C7: `add`, `subtract` and `dot` fail with a dimension-mismatch error
carrying both lengths exactly when the lengths differ, and on equal lengths
return the element-wise sum, difference and reduced dot product; `scale` is
total and length-preserving (and `magnitude` is a total function by type). -/
theorem vector_ops_contract (a b : List JsNum) :
    (a.length ≠ b.length →
      add a b = Except.error (VecError.dimensionMismatch a.length b.length) ∧
      subtract a b = Except.error (VecError.dimensionMismatch a.length b.length) ∧
      dot a b = Except.error (VecError.dimensionMismatch a.length b.length)) ∧
    (a.length = b.length →
      add a b = Except.ok (List.zipWith jsAdd a b) ∧
      subtract a b = Except.ok (List.zipWith jsSub a b) ∧
      dot a b = Except.ok ((List.zipWith jsMul a b).foldl jsAdd (JsNum.fin 0))) ∧
    (∀ k, (scale a k).length = a.length) := by
  refine ⟨fun h => ⟨?_, ?_, ?_⟩,
    fun h => ⟨add_eq_ok h, subtract_eq_ok h, dot_eq_ok h⟩,
    fun k => by simp [scale]⟩
  · unfold add; rw [if_pos h]
  · unfold subtract; rw [if_pos h]
  · unfold dot; rw [if_pos h]

unseal Rat.add Rat.mul Rat.inv Rat.sub in
theorem vector_ops_contract_witness :
    add [JsNum.fin 1] [JsNum.fin 2, JsNum.fin 3] =
      Except.error (VecError.dimensionMismatch 1 2) ∧
    dot [JsNum.fin 1, JsNum.fin 2] [JsNum.fin 3, JsNum.fin 4] =
      Except.ok (JsNum.fin 11) := by
  constructor
  · exact ((vector_ops_contract [JsNum.fin 1] [JsNum.fin 2, JsNum.fin 3]).1
      (by decide)).1
  · rw [((vector_ops_contract [JsNum.fin 1, JsNum.fin 2]
      [JsNum.fin 3, JsNum.fin 4]).2.1 rfl).2.2]
    decide

/-- C6: for every input the safe solver returns a structured outcome: a
success carrying exactly the trajectory the solver computed, or a failure
carrying exactly the structured error the solver raised — no error kind is
swallowed or defaulted, and the function is total by construction. -/
theorem solveODESafe_outcomes (system : ODESystem) (config : SolverConfig) :
    (∃ traj, solveODE system config = Except.ok traj ∧
      solveODESafe system config = SolverResult.success traj) ∨
    (∃ e, solveODE system config = Except.error e ∧
      solveODESafe system config = SolverResult.failure e) := by
  cases h : solveODE system config with
  | ok t => exact Or.inl ⟨t, rfl, by simp [solveODESafe, h]⟩
  | error e => exact Or.inr ⟨e, rfl, by simp [solveODESafe, h]⟩

/-- C8: the solver is a pure function of its two inputs — two runs on
identical inputs produce identical results, and successful trajectories
agree point for point. -/
theorem solver_deterministic (system : ODESystem) (config : SolverConfig)
    (r₁ r₂ : SolverResult) (h₁ : r₁ = solveODESafe system config)
    (h₂ : r₂ = solveODESafe system config) :
    r₁ = r₂ ∧ ∀ t₁ t₂, r₁ = SolverResult.success t₁ →
      r₂ = SolverResult.success t₂ → t₁.points = t₂.points := by
  subst h₁; subst h₂
  refine ⟨rfl, fun t₁ t₂ e₁ e₂ => ?_⟩
  rw [e₁] at e₂
  injection e₂ with h
  rw [h]

theorem solver_deterministic_witness :
    solveODESafe constSystem cfg1 = solveODESafe constSystem cfg1 ∧
    ∀ t₁ t₂, solveODESafe constSystem cfg1 = SolverResult.success t₁ →
      solveODESafe constSystem cfg1 = SolverResult.success t₂ →
      t₁.points = t₂.points :=
  solver_deterministic constSystem cfg1 _ _ rfl rfl

lemma zipWith_jsMul_self (v : List JsNum) :
    List.zipWith jsMul v v = v.map (fun x => jsMul x x) := by
  induction v with
  | nil => rfl
  | cons x xs ih => simp [List.zipWith_cons_cons, ih]

lemma magFold_nonfin : ∀ (v : List JsNum) (acc : JsNum),
    (acc = JsNum.inf ∨ acc = JsNum.nan) →
    (v.foldl (fun sum val => jsAdd sum (jsMul val val)) acc = JsNum.inf ∨
      v.foldl (fun sum val => jsAdd sum (jsMul val val)) acc = JsNum.nan) := by
  intro v
  induction v with
  | nil => intro acc h; simpa using h
  | cons x xs ih =>
    intro acc h
    rcases h with h | h <;> subst h <;> cases x <;>
      simp [List.foldl_cons, jsAdd, jsMul] <;> apply ih <;> simp [jsAdd, jsMul]

lemma magFold_fin_nonneg : ∀ (v : List JsNum) (a : ℚ), 0 ≤ a → ∀ q : ℚ,
    v.foldl (fun sum val => jsAdd sum (jsMul val val)) (JsNum.fin a) = JsNum.fin q →
    0 ≤ q := by
  intro v
  induction v with
  | nil =>
    intro a ha q h
    simp only [List.foldl_nil] at h
    injection h with h
    rwa [← h]
  | cons x xs ih =>
    intro a ha q h
    simp only [List.foldl_cons] at h
    cases x with
    | fin r =>
      have : jsAdd (JsNum.fin a) (jsMul (JsNum.fin r) (JsNum.fin r)) =
          JsNum.fin (a + r * r) := rfl
      rw [this] at h
      exact ih (a + r * r) (add_nonneg ha (mul_self_nonneg r)) q h
    | nan =>
      rw [show jsAdd (JsNum.fin a) (jsMul JsNum.nan JsNum.nan) = JsNum.nan from rfl] at h
      rcases magFold_nonfin xs JsNum.nan (Or.inr rfl) with h2 | h2 <;>
        rw [h2] at h <;> exact absurd h (by simp)
    | inf =>
      rw [show jsAdd (JsNum.fin a) (jsMul JsNum.inf JsNum.inf) = JsNum.inf from rfl] at h
      rcases magFold_nonfin xs JsNum.inf (Or.inl rfl) with h2 | h2 <;>
        rw [h2] at h <;> exact absurd h (by simp)
    | negInf =>
      rw [show jsAdd (JsNum.fin a) (jsMul JsNum.negInf JsNum.negInf) = JsNum.inf from rfl] at h
      rcases magFold_nonfin xs JsNum.inf (Or.inl rfl) with h2 | h2 <;>
        rw [h2] at h <;> exact absurd h (by simp)

/-- C10: `dot v v` succeeds and returns exactly the sum of squared elements
that `magnitude` reduces (the two reductions agree element by element), so
`magnitude v` is the square root of `dot(v, v)`; on a finite sum `q` the sum
is nonnegative, `magnitude v` is `√q`, and `(√q)² = q` in real arithmetic. -/
theorem magnitude_dot_self (v : List JsNum) :
    dot v v = Except.ok (magnitudeSum v) ∧
    ∀ q : ℚ, magnitudeSum v = JsNum.fin q →
      0 ≤ q ∧ magnitude v = JsReal.fin (Real.sqrt (q : ℝ)) ∧
        Real.sqrt (q : ℝ) ^ 2 = (q : ℝ) := by
  constructor
  · rw [dot_eq_ok rfl, zipWith_jsMul_self, List.foldl_map]
    rfl
  · intro q hq
    have hq0 : 0 ≤ q := magFold_fin_nonneg v 0 le_rfl q (by simpa [magnitudeSum] using hq)
    refine ⟨hq0, ?_, Real.sq_sqrt (by exact_mod_cast hq0)⟩
    rw [magnitude, hq]
    simp [jsSqrt, not_lt.mpr hq0]

unseal Rat.add Rat.mul Rat.inv Rat.sub in
theorem magnitude_dot_self_witness :
    0 ≤ (25 : ℚ) ∧
    magnitude [JsNum.fin 3, JsNum.fin 4] = JsReal.fin (Real.sqrt ((25 : ℚ) : ℝ)) ∧
    Real.sqrt ((25 : ℚ) : ℝ) ^ 2 = ((25 : ℚ) : ℝ) :=
  (magnitude_dot_self [JsNum.fin 3, JsNum.fin 4]).2 25 (by decide)



lemma checkParamValues_eq (ps : List Parameter) (parameters : ParamMap) :
    checkParamValues ps parameters = firstViolation (ps.flatMap (fun param =>
      let value := (parameters.lookup param.name).getD JsNum.nan
      [ (!jsIsFinite value, ValidationError.parameterNotFinite param.name),
        (jsLt value param.min || jsGt value param.max,
          ValidationError.parameterOutOfRange param.name value
            param.min param.max) ])) := by
  induction ps with
  | nil => rfl
  | cons p rest ih =>
    simp only [List.flatMap_cons, List.cons_append, List.nil_append]
    cases h1 : (!jsIsFinite ((parameters.lookup p.name).getD JsNum.nan)) with
    | true => simp [checkParamValues, firstViolation, List.find?, h1]
    | false =>
      cases h2 : (jsLt ((parameters.lookup p.name).getD JsNum.nan) p.min ||
          jsGt ((parameters.lookup p.name).getD JsNum.nan) p.max) with
      | true => simp [checkParamValues, firstViolation, List.find?, h1, h2]
      | false =>
        simp only [checkParamValues, h1, h2, Bool.false_eq_true, if_false]
        rw [ih]
        simp [firstViolation, List.find?, h1, h2]

/-- C1 (amended): the validator returns `none` or the first violated rule,
first match wins, in the code's priority order — the `dt ≤ tMax` check runs
before the `tMax` finiteness/positivity checks. -/
theorem validateSolverConfig_first_violation (config : SolverConfig)
    (system : ODESystem) :
    validateSolverConfig config system =
      firstViolation (validationRules config system) := by
  unfold validateSolverConfig validationRules
  cases h1 : (!jsIsFinite config.dt) with
  | true => simp [firstViolation, List.find?, h1]
  | false =>
  cases h2 : jsLe config.dt (JsNum.fin 0) with
  | true => simp [firstViolation, List.find?, h1, h2]
  | false =>
  cases h3 : jsGt config.dt config.tMax with
  | true => simp [firstViolation, List.find?, h1, h2, h3]
  | false =>
  cases h4 : (!jsIsFinite config.tMax) with
  | true => simp [firstViolation, List.find?, h1, h2, h3, h4]
  | false =>
  cases h5 : jsLe config.tMax (JsNum.fin 0) with
  | true => simp [firstViolation, List.find?, h1, h2, h3, h4, h5]
  | false =>
  by_cases h6 : config.initialConditions.length ≠ system.stateVariables.length
  · simp [firstViolation, List.find?, h1, h2, h3, h4, h5, h6]
  · cases h7 : config.initialConditions.any (fun val => !jsIsFinite val) with
    | true => simp [firstViolation, List.find?, h1, h2, h3, h4, h5, h6, h7]
    | false =>
    by_cases h8 : ((system.parameters.map Parameter.name).filter
        (fun nm => (config.parameters.lookup nm).isNone)) ≠ []
    · simp [firstViolation, List.find?, h1, h2, h3, h4, h5, h6, h7, h8]
    · rw [checkParamValues_eq]
      simp [firstViolation, List.find?, h1, h2, h3, h4, h5, h6, h7, h8]

/-- C1 counterexample: for `dt = 1` (finite, positive) and `tMax = -1`,
which violates both the `tMax > 0` rule and the `dt ≤ tMax` rule, the
validator reports the `dt ≤ tMax` violation, not the `tMax` one — the code
checks `dt > tMax` before it validates `tMax`. -/
theorem validator_priority_counterexample :
    validateSolverConfig cfgBadTMax constSystem =
      some ValidationError.dtGreaterThanTMax ∧
    validateSolverConfig cfgBadTMax constSystem ≠
      some ValidationError.tMaxNotPositive := by
  exact ⟨by decide, by decide⟩



lemma jsAdd_assoc (a b c : JsNum) :
    jsAdd (jsAdd a b) c = jsAdd a (jsAdd b c) := by
  cases a <;> cases b <;> cases c <;> simp [jsAdd, add_assoc]

lemma zipWith_jsAdd_assoc (a b c : List JsNum) :
    List.zipWith jsAdd (List.zipWith jsAdd a b) c =
      List.zipWith jsAdd a (List.zipWith jsAdd b c) := by
  induction a generalizing b c with
  | nil => simp
  | cons x xs ih =>
    cases b with
    | nil => simp
    | cons y ys =>
      cases c with
      | nil => simp
      | cons z zs =>
        simp only [List.zipWith_cons_cons, jsAdd_assoc]
        rw [ih ys zs]

lemma scale_length (v : List JsNum) (k : JsNum) :
    (scale v k).length = v.length := by
  simp [scale]

/-- C4: one call of `rk4Step` returns exactly the classical RK4 update
`state + (dt/6)·(k1 + 2·k2 + 2·k3 + k4)` of the spec whenever the
derivative function returns vectors of the state's length; the stepper
performs no finiteness check — the equation holds for arbitrary `f` and
`dt`, including dynamics producing non-finite values. -/
theorem rk4Step_formula (f : List JsNum → ParamMap → List JsNum)
    (state : List JsNum) (params : ParamMap) (dt : JsNum)
    (hf : ∀ s : List JsNum, s.length = state.length →
      (f s params).length = state.length) :
    rk4Step f state params dt = Except.ok (rk4SpecNext f state params dt) := by
  simp only [rk4Step, rk4SpecNext, addV]
  set k1 := f state params with hk1
  have l1 : k1.length = state.length := hf state rfl
  have e1 : add state (scale k1 (jsDiv dt (JsNum.fin 2))) =
      Except.ok (List.zipWith jsAdd state (scale k1 (jsDiv dt (JsNum.fin 2)))) :=
    add_eq_ok (by simp [scale_length, l1])
  simp only [e1]
  set s2 := List.zipWith jsAdd state (scale k1 (jsDiv dt (JsNum.fin 2))) with hs2
  have ls2 : s2.length = state.length := by
    simp [hs2, List.length_zipWith, scale_length, l1]
  set k2 := f s2 params with hk2
  have l2 : k2.length = state.length := hf s2 ls2
  have e2 : add state (scale k2 (jsDiv dt (JsNum.fin 2))) =
      Except.ok (List.zipWith jsAdd state (scale k2 (jsDiv dt (JsNum.fin 2)))) :=
    add_eq_ok (by simp [scale_length, l2])
  simp only [e2]
  set s3 := List.zipWith jsAdd state (scale k2 (jsDiv dt (JsNum.fin 2))) with hs3
  have ls3 : s3.length = state.length := by
    simp [hs3, List.length_zipWith, scale_length, l2]
  set k3 := f s3 params with hk3
  have l3 : k3.length = state.length := hf s3 ls3
  have e3 : add state (scale k3 dt) =
      Except.ok (List.zipWith jsAdd state (scale k3 dt)) :=
    add_eq_ok (by simp [scale_length, l3])
  simp only [e3]
  set s4 := List.zipWith jsAdd state (scale k3 dt) with hs4
  have ls4 : s4.length = state.length := by
    simp [hs4, List.length_zipWith, scale_length, l3]
  set k4 := f s4 params with hk4
  have l4 : k4.length = state.length := hf s4 ls4
  have e4 : add k1 (scale k2 (JsNum.fin 2)) =
      Except.ok (List.zipWith jsAdd k1 (scale k2 (JsNum.fin 2))) :=
    add_eq_ok (by simp [scale_length, l1, l2])
  simp only [e4]
  have e5 : add (scale k3 (JsNum.fin 2)) k4 =
      Except.ok (List.zipWith jsAdd (scale k3 (JsNum.fin 2)) k4) :=
    add_eq_ok (by simp [scale_length, l3, l4])
  simp only [e5]
  set w1 := List.zipWith jsAdd k1 (scale k2 (JsNum.fin 2)) with hw1
  set w2 := List.zipWith jsAdd (scale k3 (JsNum.fin 2)) k4 with hw2
  have lw1 : w1.length = state.length := by
    simp [hw1, List.length_zipWith, scale_length, l1, l2]
  have lw2 : w2.length = state.length := by
    simp [hw2, List.length_zipWith, scale_length, l3, l4]
  have e6 : add w1 w2 = Except.ok (List.zipWith jsAdd w1 w2) :=
    add_eq_ok (by rw [lw1, lw2])
  simp only [e6]
  have e7 : add state (scale (List.zipWith jsAdd w1 w2) (jsDiv dt (JsNum.fin 6))) =
      Except.ok (List.zipWith jsAdd state
        (scale (List.zipWith jsAdd w1 w2) (jsDiv dt (JsNum.fin 6)))) :=
    add_eq_ok (by simp [scale_length, List.length_zipWith, lw1, lw2])
  simp only [e7, hw1, hw2]
  rw [← zipWith_jsAdd_assoc]

unseal Rat.add Rat.mul Rat.inv Rat.sub in
theorem rk4Step_formula_witness :
    rk4Step (fun _ _ => [JsNum.fin 0]) [JsNum.fin 1] [] (JsNum.fin 1) =
      Except.ok (rk4SpecNext (fun _ _ => [JsNum.fin 0]) [JsNum.fin 1] []
        (JsNum.fin 1)) ∧
    rk4SpecNext (fun _ _ => [JsNum.fin 0]) [JsNum.fin 1] [] (JsNum.fin 1) =
      [JsNum.fin 1] :=
  ⟨rk4Step_formula (fun _ _ => [JsNum.fin 0]) [JsNum.fin 1] [] (JsNum.fin 1)
    (fun _ _ => rfl), by decide⟩



lemma valid_dt_facts (config : SolverConfig) (system : ODESystem)
    (h : validateSolverConfig config system = none) :
    ∃ q m : ℚ, config.dt = JsNum.fin q ∧ config.tMax = JsNum.fin m ∧
      0 < q ∧ 0 < m ∧ q ≤ m ∧
      hasInvalidValues config.initialConditions = false := by
  unfold validateSolverConfig at h
  by_cases h1 : (!jsIsFinite config.dt) = true
  · rw [if_pos h1] at h; simp at h
  rw [if_neg h1] at h
  by_cases h2 : jsLe config.dt (JsNum.fin 0) = true
  · rw [if_pos h2] at h; simp at h
  rw [if_neg h2] at h
  by_cases h3 : jsGt config.dt config.tMax = true
  · rw [if_pos h3] at h; simp at h
  rw [if_neg h3] at h
  by_cases h4 : (!jsIsFinite config.tMax) = true
  · rw [if_pos h4] at h; simp at h
  rw [if_neg h4] at h
  by_cases h5 : jsLe config.tMax (JsNum.fin 0) = true
  · rw [if_pos h5] at h; simp at h
  rw [if_neg h5] at h
  by_cases h6 : config.initialConditions.length ≠ system.stateVariables.length
  · rw [if_pos h6] at h; simp at h
  rw [if_neg h6] at h
  by_cases h7 : (config.initialConditions.any fun val => !jsIsFinite val) = true
  · rw [if_pos h7] at h; simp at h
  simp only [Bool.not_eq_true] at h1 h2 h3 h4 h5 h7
  cases hdt : config.dt with
  | fin q =>
    cases htm : config.tMax with
    | fin m =>
      refine ⟨q, m, rfl, rfl, ?_, ?_, ?_, ?_⟩
      · rw [hdt] at h2
        simp only [jsLe, decide_eq_false_iff_not, not_le] at h2
        exact h2
      · rw [htm] at h5
        simp only [jsLe, decide_eq_false_iff_not, not_le] at h5
        exact h5
      · rw [hdt, htm] at h3
        simp only [jsGt, jsLt, decide_eq_false_iff_not, not_lt] at h3
        exact h3
      · exact h7
    | nan => rw [htm] at h4; simp [jsIsFinite] at h4
    | inf => rw [htm] at h4; simp [jsIsFinite] at h4
    | negInf => rw [htm] at h4; simp [jsIsFinite] at h4
  | nan => rw [hdt] at h1; simp [jsIsFinite] at h1
  | inf => rw [hdt] at h1; simp [jsIsFinite] at h1
  | negInf => rw [hdt] at h1; simp [jsIsFinite] at h1

lemma integrateLoop_no_budget (f : List JsNum → ParamMap → List JsNum)
    (params : ParamMap) (dt tMax : ℚ) (hdt : 0 < dt) :
    ∀ (fuel n : ℕ) (state : List JsNum) (points : List TrajectoryPoint),
      fuel + n = (⌈tMax / dt⌉ + 1).toNat → (n : ℤ) ≤ ⌈tMax / dt⌉ →
      integrateLoop f params dt tMax fuel ((n : ℚ) * dt) state points ≠
        Except.error SolveError.stepBudgetExceeded := by
  intro fuel
  induction fuel with
  | zero =>
    intro n state points hfuel hn
    exfalso
    omega
  | succ fuel ih =>
    intro n state points hfuel hn
    rw [integrateLoop]
    by_cases ht : ((n : ℚ) * dt) < tMax
    · rw [if_pos ht]
      cases hr : rk4Step f state params (JsNum.fin dt) with
      | error e => cases e; simp
      | ok next =>
        by_cases hv : hasInvalidValues next = true
        · simp [hv]
        · simp only [hv, Bool.false_eq_true, if_false]
          have harg : (n : ℚ) * dt + dt = ((n + 1 : ℕ) : ℚ) * dt := by
            push_cast; ring
          rw [harg]
          have h1 : (n : ℚ) < tMax / dt := (lt_div_iff₀ hdt).mpr ht
          have h2 : (n : ℤ) < ⌈tMax / dt⌉ := by
            rw [Int.lt_ceil]; exact_mod_cast h1
          exact ih (n + 1) next (points ++ [⟨((n + 1 : ℕ) : ℚ) * dt, next⟩])
            (by omega) (by omega)
    · rw [if_neg ht]; simp

/-- C2: for every valid configuration the integrator's hard cap is
`⌈tMax / dt⌉ + 1` (a genuine natural number, no truncation), and the
`StepBudgetExceeded` failure is never produced: in exact arithmetic the
loop always leaves via `t ≥ tMax` after `⌈tMax / dt⌉` steps, strictly
below the cap, so the failure occurs exactly when the loop exhausts the
cap with `t` short of `tMax` — which never happens. -/
theorem solveODE_step_budget (system : ODESystem) (config : SolverConfig)
    (hv : validateSolverConfig config system = none) :
    (((⌈finVal config.tMax / finVal config.dt⌉ + 1).toNat : ℤ) =
      ⌈finVal config.tMax / finVal config.dt⌉ + 1) ∧
    solveODE system config ≠ Except.error SolveError.stepBudgetExceeded := by
  obtain ⟨q, m, hdt, htm, hq, hm, hqm, hfin⟩ := valid_dt_facts config system hv
  have hceil : (0 : ℤ) ≤ ⌈m / q⌉ :=
    Int.ceil_nonneg (le_of_lt (div_pos hm hq))
  constructor
  · rw [hdt, htm]
    simp only [finVal]
    omega
  · simp only [solveODE, hv, hfin, Bool.false_eq_true, if_false, hdt, htm,
      finVal]
    have hloop := integrateLoop_no_budget system.equations config.parameters
      q m hq ((⌈m / q⌉ + 1).toNat) 0 config.initialConditions
      [⟨0, config.initialConditions⟩] (by omega) (by omega)
    rw [show ((0 : ℕ) : ℚ) * q = 0 by simp] at hloop
    cases hres : integrateLoop system.equations config.parameters q m
        ((⌈m / q⌉ + 1).toNat) 0 config.initialConditions
        [⟨0, config.initialConditions⟩] with
    | error e =>
      rw [hres] at hloop
      simp only [hres]
      intro hc
      injection hc with hc
      exact hloop (by rw [hc])
    | ok pts => simp [hres]

theorem solveODE_step_budget_witness :
    validateSolverConfig cfg1 constSystem = none ∧
    solveODE constSystem cfg1 ≠ Except.error SolveError.stepBudgetExceeded :=
  ⟨by decide, (solveODE_step_budget constSystem cfg1 (by decide)).2⟩



lemma integrateLoop_ok_props (f : List JsNum → ParamMap → List JsNum)
    (params : ParamMap) (dt tMax : ℚ) :
    ∀ (fuel : ℕ) (t : ℚ) (state : List JsNum)
      (points res : List TrajectoryPoint),
      integrateLoop f params dt tMax fuel t state points = Except.ok res →
      points ≠ [] →
      (∀ p ∈ points.getLast?, p.t = t) →
      List.Chain' (fun p q => q.t = p.t + dt) points →
      (res.head? = points.head? ∧ res ≠ [] ∧
        List.Chain' (fun p q => q.t = p.t + dt) res) := by
  intro fuel
  induction fuel with
  | zero =>
    intro t state points res h
    rw [integrateLoop] at h
    exact absurd h (by simp)
  | succ fuel ih =>
    intro t state points res h hne hlast hchain
    rw [integrateLoop] at h
    by_cases ht : t < tMax
    · rw [if_pos ht] at h
      cases hr : rk4Step f state params (JsNum.fin dt) with
      | error e =>
        simp only [hr] at h
        cases e
        exact absurd h (by simp)
      | ok next =>
        simp only [hr] at h
        by_cases hv : hasInvalidValues next = true
        · rw [if_pos hv] at h
          exact absurd h (by simp)
        · rw [if_neg hv] at h
          have hlast2 : ∀ p ∈ (points ++
              [(⟨t + dt, next⟩ : TrajectoryPoint)]).getLast?, p.t = t + dt := by
            simp [List.getLast?_concat]
          have hchain2 : List.Chain' (fun p q => q.t = p.t + dt)
              (points ++ [(⟨t + dt, next⟩ : TrajectoryPoint)]) := by
            rw [List.chain'_append]
            refine ⟨hchain, List.chain'_singleton _, ?_⟩
            intro x hx y hy
            simp only [List.head?_cons, Option.mem_some_iff] at hy
            rw [← hy]
            rw [hlast x hx]
          obtain ⟨hh, hne2, hch⟩ := ih (t + dt) next _ res h
            (by simp) hlast2 hchain2
          refine ⟨?_, hne2, hch⟩
          rw [hh, List.head?_append_of_ne_nil _ hne]
    · rw [if_neg ht] at h
      injection h with h
      subst h
      exact ⟨rfl, hne, hchain⟩

/-- C3: for a valid configuration, a successful run's trajectory starts at
the point `(0, initialConditions)`, is nonempty, and each successive point's
time exceeds the previous one's by exactly `dt` (hence times are strictly
increasing); each RK4 step appended exactly one point, so the point count is
one more than the number of steps taken. -/
theorem solveODE_trajectory_shape (system : ODESystem) (config : SolverConfig)
    (traj : Trajectory) (hv : validateSolverConfig config system = none)
    (hs : solveODE system config = Except.ok traj) :
    traj.points.head? = some ⟨0, config.initialConditions⟩ ∧
    traj.points ≠ [] ∧
    (∀ (i : ℕ) (hi : i < traj.points.length) (hi1 : i + 1 < traj.points.length),
      (traj.points.get ⟨i + 1, hi1⟩).t =
        (traj.points.get ⟨i, hi⟩).t + finVal config.dt ∧
      (traj.points.get ⟨i, hi⟩).t < (traj.points.get ⟨i + 1, hi1⟩).t) := by
  obtain ⟨q, m, hdt, htm, hq, hm, hqm, hfin⟩ := valid_dt_facts config system hv
  simp only [solveODE, hv, hfin, Bool.false_eq_true, if_false, hdt, htm,
    finVal] at hs
  cases hres : integrateLoop system.equations config.parameters q m
      ((⌈m / q⌉ + 1).toNat) 0 config.initialConditions
      [⟨0, config.initialConditions⟩] with
  | error e => rw [hres] at hs; exact absurd hs (by simp)
  | ok pts =>
    rw [hres] at hs
    simp only [Except.ok.injEq] at hs
    obtain ⟨hh, hne, hch⟩ := integrateLoop_ok_props system.equations
      config.parameters q m ((⌈m / q⌉ + 1).toNat) 0 config.initialConditions
      [⟨0, config.initialConditions⟩] pts hres (by simp) (by simp)
      (List.chain'_singleton _)
    have hdtq : finVal config.dt = q := by simp [hdt, finVal]
    subst hs
    dsimp only
    refine ⟨?_, ?_, ?_⟩
    · rw [hh]; rfl
    · exact hne
    · intro i hi hi1
      have hstep := List.chain'_iff_get.mp hch i (by omega)
      have hstep2 : (pts.get ⟨i + 1, hi1⟩).t =
          (pts.get ⟨i, hi⟩).t + finVal config.dt := by
        rw [hdtq]
        exact hstep
      refine ⟨hstep2, ?_⟩
      rw [hstep2, hdtq]
      exact lt_add_of_pos_right _ hq

unseal Rat.add Rat.mul Rat.inv Rat.sub in
theorem solveODE_trajectory_shape_witness :
    validateSolverConfig cfg1 constSystem = none ∧
    solveODE constSystem cfg1 = Except.ok
      ⟨[⟨0, [JsNum.fin 1]⟩, ⟨1, [JsNum.fin 1]⟩], ["x"]⟩ ∧
    (⟨[⟨0, [JsNum.fin 1]⟩, ⟨1, [JsNum.fin 1]⟩], ["x"]⟩ :
        Trajectory).points.head? = some ⟨0, cfg1.initialConditions⟩ :=
  ⟨by decide, by decide,
    (solveODE_trajectory_shape constSystem cfg1
      ⟨[⟨0, [JsNum.fin 1]⟩, ⟨1, [JsNum.fin 1]⟩], ["x"]⟩
      (by decide) (by decide)).1⟩

lemma integrateLoop_instability (f : List JsNum → ParamMap → List JsNum)
    (params : ParamMap) (dt tMax : ℚ) :
    ∀ (fuel : ℕ) (t : ℚ) (state : List JsNum)
      (points : List TrajectoryPoint) (τ : ℚ),
      integrateLoop f params dt tMax fuel t state points =
        Except.error (SolveError.numericalInstability τ) →
      (∃ k : ℕ, τ = t + ((k : ℚ) + 1) * dt) ∧ τ < tMax + dt := by
  intro fuel
  induction fuel with
  | zero =>
    intro t state points τ h
    rw [integrateLoop] at h
    exact absurd h (by simp)
  | succ fuel ih =>
    intro t state points τ h
    rw [integrateLoop] at h
    by_cases ht : t < tMax
    · rw [if_pos ht] at h
      cases hr : rk4Step f state params (JsNum.fin dt) with
      | error e =>
        simp only [hr] at h
        cases e
        exact absurd h (by simp)
      | ok next =>
        simp only [hr] at h
        by_cases hv : hasInvalidValues next = true
        · rw [if_pos hv] at h
          injection h with h
          injection h with h
          refine ⟨⟨0, ?_⟩, ?_⟩
          · rw [← h]; push_cast; ring
          · rw [← h]; linarith
        · rw [if_neg hv] at h
          obtain ⟨⟨k, hk⟩, hb⟩ := ih (t + dt) next _ τ h
          refine ⟨⟨k + 1, ?_⟩, hb⟩
          rw [hk]; push_cast; ring
    · rw [if_neg ht] at h
      exact absurd h (by simp)

/-- C5 (amended): for a valid configuration, an instability failure reports
the simulation time of the first non-finite state — a strictly positive
multiple `(n+1)·dt` of the step size (a time, not a step index), less than
`tMax + dt` (it can equal or exceed `tMax` when the failing step is the
final one) — and the safe wrapper returns that failure alone, with no
partial trajectory. -/
theorem solveODE_instability_report (system : ODESystem)
    (config : SolverConfig) (τ : ℚ)
    (hv : validateSolverConfig config system = none)
    (hs : solveODE system config =
      Except.error (SolveError.numericalInstability τ)) :
    (∃ n : ℕ, τ = ((n : ℚ) + 1) * finVal config.dt) ∧
    0 < τ ∧ τ < finVal config.tMax + finVal config.dt ∧
    solveODESafe system config =
      SolverResult.failure (SolveError.numericalInstability τ) := by
  obtain ⟨q, m, hdt, htm, hq, hm, hqm, hfin⟩ := valid_dt_facts config system hv
  have hsafe : solveODESafe system config =
      SolverResult.failure (SolveError.numericalInstability τ) := by
    rw [solveODESafe, hs]
  simp only [solveODE, hv, hfin, Bool.false_eq_true, if_false, hdt, htm,
    finVal] at hs
  cases hres : integrateLoop system.equations config.parameters q m
      ((⌈m / q⌉ + 1).toNat) 0 config.initialConditions
      [⟨0, config.initialConditions⟩] with
  | ok pts => rw [hres] at hs; exact absurd hs (by simp)
  | error e =>
    rw [hres] at hs
    simp only [Except.error.injEq] at hs
    rw [hs] at hres
    obtain ⟨⟨k, hk⟩, hb⟩ := integrateLoop_instability system.equations
      config.parameters q m ((⌈m / q⌉ + 1).toNat) 0 config.initialConditions
      [⟨0, config.initialConditions⟩] τ hres
    rw [zero_add] at hk
    have hdtq : finVal config.dt = q := by simp [hdt, finVal]
    have htmq : finVal config.tMax = m := by simp [htm, finVal]
    refine ⟨⟨k, by rw [hdtq, hk]⟩, ?_, ?_, hsafe⟩
    · rw [hk]
      have : (0 : ℚ) < (k : ℚ) + 1 := by positivity
      exact mul_pos this hq
    · rw [hdtq, htmq]
      exact hb

unseal Rat.add Rat.mul Rat.inv Rat.sub in
theorem instability_time_counterexample :
    solveODE nanSystem cfg1 =
      Except.error (SolveError.numericalInstability 1) ∧
    ¬ ((1 : ℚ) < finVal cfg1.tMax) :=
  ⟨by decide, by decide⟩

unseal Rat.add Rat.mul Rat.inv Rat.sub in
theorem solveODE_instability_report_witness :
    (∃ n : ℕ, (1 : ℚ) = ((n : ℚ) + 1) * finVal cfg1.dt) ∧
    0 < (1 : ℚ) ∧ (1 : ℚ) < finVal cfg1.tMax + finVal cfg1.dt ∧
    solveODESafe nanSystem cfg1 =
      SolverResult.failure (SolveError.numericalInstability 1) :=
  solveODE_instability_report nanSystem cfg1 1 (by decide) (by decide)

end DiffEq
